import Mathlib

/-!
Shallow embedding of the timer/poll event loop of `src/c_eventloop.c`
(JavaScript-Duktape-XS).  Machine doubles used for times are modelled by `ℚ`
(ordering and field operations are all the claims depend on); C `int`/`int64_t`
values are modelled by `Int`.  The Duktape value stack and the callback handles
themselves are external to the core; the global-stash `eventTimers` object is
modelled by the list of timer ids it holds, which is exactly the part the C
code reads and writes.  Timer and file-descriptor callbacks are modelled as
oracles: an arbitrary state transformer for the general theorems, and a
transformer generated by a list of API operations (`Op`) when a theorem needs
the fact that script callbacks can only act through the public API.
-/

namespace CEventLoop

/-- Constant MAX_TIMERS of c_eventloop.c. -/
def MAX_TIMERS : Nat := 4096

/-- Constant MIN_DELAY of c_eventloop.c. -/
def MIN_DELAY : ℚ := 1

/-- Constant MIN_WAIT of c_eventloop.c. -/
def MIN_WAIT : ℚ := 1

/-- Constant MAX_WAIT of c_eventloop.c. -/
def MAX_WAIT : ℚ := 60000

/-- Constant MAX_EXPIRYS of c_eventloop.c. -/
def MAX_EXPIRYS : Nat := 10

/-- Constant MAX_FDS of c_eventloop.c. -/
def MAX_FDS : Nat := 256

/-- Struct ev_timer of c_eventloop.c: id is zero iff the slot is unused. -/
structure EvTimer where
  id : Int
  target : ℚ
  delay : ℚ
  oneshot : Bool
  removed : Bool
deriving DecidableEq

/-- Memset-zeroed ev_timer struct. -/
def zeroTimer : EvTimer := ⟨0, 0, 0, false, false⟩

/-- Struct pollfd as used by c_eventloop.c (fd 0 is the tombstone marker). -/
structure PollFd where
  fd : Int
  events : Int
  revents : Int
deriving DecidableEq

/-- Global mutable state of c_eventloop.c.  `timer_list` holds the dense
prefix of the C array, in array order: sorted by target with the lowest
target (earliest expiry) LAST, as the comment at line 45 states.
`eventTimers` is the set of ids registered in the global stash store. -/
structure EvState where
  timer_list : List EvTimer
  timer_expiring : EvTimer
  timer_next_id : Int
  eventTimers : List Int
  poll_list : List PollFd
  exit_requested : Bool
deriving DecidableEq

/-- State right after eventloop_register: everything zeroed, next id 1. -/
def initEvState : EvState := ⟨[], zeroTimer, 1, [], [], false⟩

/-- Core of bubble_last_timer, expressed on the REVERSED timer array: the
element to bubble is at the head and is moved past every neighbour whose
target is strictly smaller, stopping at the first neighbour with
`t.target ≤ p.target` (the break at line 89-91 of c_eventloop.c). -/
def bubbleRev (t : EvTimer) : List EvTimer → List EvTimer
  | [] => [t]
  | p :: rest =>
    if t.target ≤ p.target then t :: p :: rest
    else p :: bubbleRev t rest

/-- Function bubble_last_timer of c_eventloop.c: swap the last array element
backwards to its sorted position. -/
def bubble_last_timer (l : List EvTimer) : List EvTimer :=
  match l.reverse with
  | [] => []
  | t :: revFront => (bubbleRev t revFront).reverse

/-- Function find_nearest_timer of c_eventloop.c: the last array element is
the earliest-expiring timer; NULL (none) when no timer is pending. -/
def find_nearest_timer (s : EvState) : Option EvTimer :=
  s.timer_list.getLast?

/-- Function create_timer of c_eventloop.c (state part).  Clamps the delay to
MIN_DELAY, fails with a range error when the timer table is full, otherwise
appends the fresh timer, bubbles it into sorted position, registers the id in
the eventTimers store and returns the id. -/
def create_timer (now delay : ℚ) (oneshot : Bool) (s : EvState) :
    Except Unit (Int × EvState) :=
  let d := if delay < MIN_DELAY then MIN_DELAY else delay
  if MAX_TIMERS ≤ s.timer_list.length then .error ()
  else
    let tid := s.timer_next_id
    let t : EvTimer := ⟨tid, now + d, d, oneshot, false⟩
    .ok (tid, { s with
      timer_list := bubble_last_timer (s.timer_list ++ [t]),
      timer_next_id := s.timer_next_id + 1,
      eventTimers := tid :: s.eventTimers })

/-- Scan of the delete_timer loop of c_eventloop.c: remove the first timer
with the given id, keeping the list dense; none when no match. -/
def removeFirstById (tid : Int) : List EvTimer → Option (List EvTimer)
  | [] => none
  | t :: rest =>
    if t.id = tid then some rest
    else
      match removeFirstById tid rest with
      | none => none
      | some l => some (t :: l)

/-- Function delete_timer of c_eventloop.c.  First compares the requested id
with `timer_expiring.id` (line 471-479): on a match it only marks the
expiring slot removed and reports found.  Otherwise it scans the timer list;
on a match it removes the entry and unregisters the id from the eventTimers
store.  The boolean result is the found flag pushed to the caller. -/
def delete_timer (tid : Int) (s : EvState) : Bool × EvState :=
  if s.timer_expiring.id = tid then
    (true, { s with timer_expiring := { s.timer_expiring with removed := true } })
  else
    match removeFirstById tid s.timer_list with
    | some l =>
      (true, { s with timer_list := l,
                      eventTimers := s.eventTimers.filter (fun j => j ≠ tid) })
    | none => (false, s)

/-- Scan of listen_fd of c_eventloop.c: first entry whose fd matches is
updated in place (events mask, or tombstoned via fd := 0 when the new mask is
zero); none when the fd is not present. -/
def listen_fd_update (fd events : Int) : List PollFd → Option (List PollFd)
  | [] => none
  | p :: ps =>
    if p.fd = fd then
      some ((if events = 0 then { p with fd := 0 } else { p with events := events }) :: ps)
    else
      match listen_fd_update fd events ps with
      | none => none
      | some l => some (p :: l)

/-- Function listen_fd of c_eventloop.c: update in place when present,
otherwise append a fresh entry (with revents 0), failing when the table is
full.  Note the append branch is reached for events = 0 as well. -/
def listen_fd (fd events : Int) (l : List PollFd) : Except Unit (List PollFd) :=
  match listen_fd_update fd events l with
  | some l2 => .ok l2
  | none =>
    if MAX_FDS ≤ l.length then .error ()
    else .ok (l ++ [⟨fd, events, 0⟩])

/-- Public API operations a script callback may perform (the four functions
registered by eventloop_register).  A createTimer op carries the clock value
the C code would read inside create_timer. -/
inductive Op where
  | createTimer (now delay : ℚ) (oneshot : Bool)
  | deleteTimer (tid : Int)
  | listenFd (fd events : Int)
  | requestExit

/-- Effect of one API operation on the state.  An operation that hits a
capacity error throws in C, aborting the rest of the script callback; the
state at that point is unchanged, which is how the error case is modelled
here (any abort is also expressible as a shorter operation list). -/
def applyOp (s : EvState) : Op → EvState
  | .createTimer now delay oneshot =>
    match create_timer now delay oneshot s with
    | .ok r => r.2
    | .error _ => s
  | .deleteTimer tid => (delete_timer tid s).2
  | .listenFd fd events =>
    match listen_fd fd events s.poll_list with
    | .ok l => { s with poll_list := l }
    | .error _ => s
  | .requestExit => { s with exit_requested := true }

/-- Effect of a sequence of API operations. -/
def applyOps (ops : List Op) (s : EvState) : EvState :=
  List.foldl applyOp s ops

/-- Behaviour of a script callback: given the fired timer id and the state it
observes, the list of API operations it performs. -/
def CbProg : Type := Int → EvState → List Op

/-- State transformer of an API-driven callback. -/
def cbOf (prog : CbProg) : Int → EvState → EvState :=
  fun i s => applyOps (prog i s) s

/-- Lines 148-157 of c_eventloop.c: move the due timer into timer_expiring
(its former slot is zeroed and leaves the dense prefix), mark it removed when
oneshot, otherwise recompute target as now + delay. -/
def fire_setup (now : ℚ) (front : List EvTimer) (t : EvTimer) (s : EvState) : EvState :=
  { s with
    timer_list := front,
    timer_expiring :=
      if t.oneshot then { t with removed := true }
      else { t with target := now + t.delay } }

/-- Lines 184-204 of c_eventloop.c, the step after the user callback has
returned: when the expiring timer is marked removed (one-shot, or cancelled
by the callback) its callback association is deleted from the eventTimers
store; otherwise the timer is queued back into the list and bubbled, which
throws a range error when the table is full.  Returns the next state and the
error flag. -/
def expire_after_cb (s2 : EvState) : EvState × Bool :=
  if s2.timer_expiring.removed then
    ({ s2 with eventTimers := s2.eventTimers.filter (fun j => j ≠ s2.timer_expiring.id) },
     false)
  else if MAX_TIMERS ≤ s2.timer_list.length then (s2, true)
  else ({ s2 with timer_list := bubble_last_timer (s2.timer_list ++ [s2.timer_expiring]) },
        false)

/-- Expiry loop of expire_timers (the `while (sanity-- > 0)` loop).  Returns
the final state, the log of callback invocations as pairs (fired id, state at
the moment of invocation), and an error flag: true when re-queuing an
interval timer hit the MAX_TIMERS range error, which in C aborts
expire_timers by a thrown error (so the final memset of timer_expiring is
skipped). -/
def expire_go (cb : Int → EvState → EvState) (now : ℚ) :
    Nat → EvState → EvState × List (Int × EvState) × Bool
  | 0, s => (s, [], false)
  | fuel + 1, s =>
    if s.exit_requested then (s, [], false)
    else
      match s.timer_list.getLast? with
      | none => (s, [], false)
      | some t =>
        if now < t.target then (s, [], false)
        else
          let s1 := fire_setup now s.timer_list.dropLast t s
          let a := expire_after_cb (cb t.id s1)
          if a.2 then (a.1, [(t.id, s1)], true)
          else
            let r := expire_go cb now fuel a.1
            (r.1, (t.id, s1) :: r.2.1, r.2.2)

/-- Function expire_timers of c_eventloop.c: run the expiry loop with the
MAX_EXPIRYS sanity bound, then clear timer_expiring (the memset at line 207,
skipped when the loop aborted with a range error). -/
def expire_timers (cb : Int → EvState → EvState) (now : ℚ) (s : EvState) :
    EvState × List (Int × EvState) × Bool :=
  let r := expire_go cb now MAX_EXPIRYS s
  if r.2.2 then r
  else ({ r.1 with timer_expiring := zeroTimer }, r.2.1, false)

/-- Function compact_poll_list of c_eventloop.c: drop tombstoned entries
(fd = 0), preserving the order of the rest. -/
def compact_poll_list (l : List PollFd) : List PollFd :=
  l.filter (fun p => p.fd ≠ 0)

/-- Revents assignment performed by a successful poll: the oracle supplies a
new revents value for a prefix of the entries, the rest are untouched. -/
def applyRevents : List PollFd → List Int → List PollFd
  | [], _ => []
  | p :: ps, [] => p :: ps
  | p :: ps, r :: rs => { p with revents := r } :: applyRevents ps rs

/-- Result of the poll(2) primitive: none models a negative return (an
error), in which case the kernel has written no revents; some (rc, rv)
models a return of rc ≥ 0 with revents assignments rv. -/
def doPoll (ret : Option (Nat × List Int)) (l : List PollFd) : Int × List PollFd :=
  match ret with
  | none => (-1, l)
  | some r => ((r.1 : Int), applyRevents l r.2)

/-- Write revents := 0 into the entry at the given array index (the
`pfd->revents = 0` after a dispatched callback). -/
def clearRevAt : Nat → List PollFd → List PollFd
  | _, [] => []
  | 0, p :: ps => { p with revents := 0 } :: ps
  | n + 1, p :: ps => p :: clearRevAt n ps

/-- Dispatch loop of eventloop_run (lines 350-381): walk indices i of the
poll list up to the snapshot count n, skip tombstoned entries and entries
with empty revents, otherwise invoke the fd handler with (fd, revents) and
clear the slot revents afterwards.  `diagId` is the value of `t->id` that
the failure-diagnostic branch at line 372-374 reads through the pointer of
the most recent find_nearest_timer call: none models the NULL pointer.  The
function returns the state, the invocation log and the list of diagnostic
reads performed (one per failing callback). -/
def dispatch_go (fdcb : Int → Int → EvState → EvState × Bool) (diagId : Option Int) :
    Nat → Nat → EvState → EvState × List (Int × Int) × List (Option Int)
  | _, 0, s => (s, [], [])
  | i, rem + 1, s =>
    match s.poll_list[i]? with
    | none => dispatch_go fdcb diagId (i + 1) rem s
    | some pfd =>
      if pfd.fd = 0 then dispatch_go fdcb diagId (i + 1) rem s
      else if pfd.revents ≠ 0 then
        let c := fdcb pfd.fd pfd.revents s
        let s2 := { c.1 with poll_list := clearRevAt i c.1.poll_list }
        let r := dispatch_go fdcb diagId (i + 1) rem s2
        (r.1, (pfd.fd, pfd.revents) :: r.2.1,
          (if c.2 then [diagId] else []) ++ r.2.2)
      else dispatch_go fdcb diagId (i + 1) rem s

/-- Observable outcome of one iteration of the eventloop_run for(;;) loop. -/
structure IterResult where
  stop : Bool
  state : EvState
  polled : Bool
  expLog : List (Int × EvState)
  fdLog : List (Int × Int)
  errReads : List (Option Int)
deriving DecidableEq

/-- One iteration of the for(;;) loop of eventloop_run: expire timers (a
range error thrown inside expire_timers propagates and ends the loop), bail
out on exit_requested, compact the poll list, compute the poll timeout from
the nearest timer — breaking out when there is neither a timer nor a watched
fd — then poll and dispatch.  `now1` is the clock read inside expire_timers,
`now2` the read at line 300. -/
def eventloop_iter (cb : Int → EvState → EvState)
    (pollO : Int → Option (Nat × List Int))
    (fdcb : Int → Int → EvState → EvState × Bool)
    (now1 now2 : ℚ) (s : EvState) : IterResult :=
  let r := expire_timers cb now1 s
  let s1 := r.1
  if r.2.2 then ⟨true, s1, false, r.2.1, [], []⟩
  else if s1.exit_requested then ⟨true, s1, false, r.2.1, [], []⟩
  else
    let s2 := { s1 with poll_list := compact_poll_list s1.poll_list }
    let timeout : Option Int :=
      match find_nearest_timer s2 with
      | some t =>
        let diff := t.target - now2
        let diff := if diff < MIN_WAIT then MIN_WAIT
                    else if MAX_WAIT < diff then MAX_WAIT else diff
        some ⌊diff⌋
      | none =>
        if s2.poll_list.length = 0 then none else some ⌊MAX_WAIT⌋
    match timeout with
    | none => ⟨true, s2, false, r.2.1, [], []⟩
    | some tmo =>
      let pr := doPoll (pollO tmo) s2.poll_list
      let s3 := { s2 with poll_list := pr.2 }
      let n := if pr.1 = 0 then 0 else s3.poll_list.length
      let d := dispatch_go fdcb ((find_nearest_timer s2).map (fun t => t.id)) 0 n s3
      ⟨false, d.1, true, r.2.1, d.2.1, d.2.2⟩

/-- Function eventloop_run of c_eventloop.c, driven for a bounded number of
iterations (the clock supplies the two time reads of each iteration).  Once
an iteration stops the loop, no further iteration runs: the logs of the
stopping iteration are final. -/
def eventloop_run (cb : Int → EvState → EvState)
    (pollO : Int → Option (Nat × List Int))
    (fdcb : Int → Int → EvState → EvState × Bool)
    (clk : Nat → ℚ × ℚ) :
    Nat → EvState → EvState × List (Int × EvState) × List (Int × Int)
  | 0, s => (s, [], [])
  | fuel + 1, s =>
    let r := eventloop_iter cb pollO fdcb (clk fuel).1 (clk fuel).2 s
    if r.stop then (r.state, r.expLog, r.fdLog)
    else
      let rest := eventloop_run cb pollO fdcb clk fuel r.state
      (rest.1, r.expLog ++ rest.2.1, r.fdLog ++ rest.2.2)

/-- Loop-level events for the timer-registry invariant: a public API call, or
one call to expire_timers with an API-driven callback behaviour. -/
inductive LoopEvent where
  | api (o : Op)
  | expire (now : ℚ) (prog : CbProg)

/-- Effect of one loop-level event on the state. -/
def runEvent (s : EvState) : LoopEvent → EvState
  | .api o => applyOp s o
  | .expire now prog => (expire_timers (cbOf prog) now s).1

/-- Effect of a sequence of loop-level events starting anywhere. -/
def runEvents (evs : List LoopEvent) (s : EvState) : EvState :=
  List.foldl runEvent s evs

/-- Ordering of the C timer array (comment at line 45-47): targets are
nonincreasing from index 0, so the earliest expiry sits last. -/
def arrSorted (l : List EvTimer) : Prop :=
  List.Pairwise (fun a b => b.target ≤ a.target) l

/-- Pending timer collection in expiry order (soonest first): the reverse of
the C array. -/
def pendingByExpiry (s : EvState) : List EvTimer :=
  s.timer_list.reverse

/-- Sorted ascending by target, the order the specification describes. -/
def timersSortedAsc (l : List EvTimer) : Prop :=
  List.Pairwise (fun a b => a.target ≤ b.target) l

/-- Property that x is a real timer id below the fresh-id counter and no
pending timer carries it.  Preserved by every public API operation, because
create_timer only hands out fresh ids. -/
def idAbsent (x : Int) (s : EvState) : Prop :=
  1 ≤ x ∧ x < s.timer_next_id ∧ ∀ t ∈ s.timer_list, t.id ≠ x

/-- Invariant satisfied once the timer with id x has been disposed of: x is
absent from the pending list, the expiring holder carries it only in removed
state, and its eventTimers association is gone.  Every public API operation
and every further expiry step preserves it, which is what makes a disposed
timer unable to ever fire again. -/
def idGone (x : Int) (s : EvState) : Prop :=
  idAbsent x s ∧
  (s.timer_expiring.id = x → s.timer_expiring.removed = true) ∧
  x ∉ s.eventTimers

/-! Equation lemmas for the expiry loop. -/

theorem expire_go_succ (cb : Int → EvState → EvState) (now : ℚ) (fuel : Nat) (s : EvState) :
    expire_go cb now (fuel + 1) s =
      (if s.exit_requested then (s, [], false)
       else
        match s.timer_list.getLast? with
        | none => (s, [], false)
        | some t =>
          if now < t.target then (s, [], false)
          else
            let s1 := fire_setup now s.timer_list.dropLast t s
            let a := expire_after_cb (cb t.id s1)
            if a.2 then (a.1, [(t.id, s1)], true)
            else
              let r := expire_go cb now fuel a.1
              (r.1, (t.id, s1) :: r.2.1, r.2.2)) := rfl

theorem expire_go_stop_exit (cb : Int → EvState → EvState) (now : ℚ) (fuel : Nat)
    {s : EvState} (hx : s.exit_requested = true) :
    expire_go cb now (fuel + 1) s = (s, [], false) := by
  rw [expire_go_succ, if_pos hx]

theorem expire_go_stop_empty (cb : Int → EvState → EvState) (now : ℚ) (fuel : Nat)
    {s : EvState} (hx : s.exit_requested = false)
    (he : s.timer_list.getLast? = none) :
    expire_go cb now (fuel + 1) s = (s, [], false) := by
  rw [expire_go_succ, hx, he]
  rfl

theorem expire_go_stop_notdue (cb : Int → EvState → EvState) (now : ℚ) (fuel : Nat)
    {s : EvState} {t : EvTimer} (hx : s.exit_requested = false)
    (ht : s.timer_list.getLast? = some t) (hnd : now < t.target) :
    expire_go cb now (fuel + 1) s = (s, [], false) := by
  rw [expire_go_succ, hx, ht]
  simp [hnd]

theorem expire_go_fire (cb : Int → EvState → EvState) (now : ℚ) (fuel : Nat)
    {s s1 : EvState} {t : EvTimer} {a : EvState × Bool}
    (hx : s.exit_requested = false)
    (ht : s.timer_list.getLast? = some t) (hd : ¬ now < t.target)
    (hs1 : s1 = fire_setup now s.timer_list.dropLast t s)
    (ha : a = expire_after_cb (cb t.id s1)) :
    expire_go cb now (fuel + 1) s =
      (if a.2 then (a.1, [(t.id, s1)], true)
       else ((expire_go cb now fuel a.1).1,
             (t.id, s1) :: (expire_go cb now fuel a.1).2.1,
             (expire_go cb now fuel a.1).2.2)) := by
  subst hs1; subst ha
  rw [expire_go_succ, hx, ht]
  simp [hd]

/-! Sortedness of the timer collection. -/

theorem mem_bubbleRev {a t : EvTimer} :
    ∀ {l : List EvTimer}, a ∈ bubbleRev t l ↔ a = t ∨ a ∈ l
  | [] => by simp [bubbleRev]
  | p :: rest => by
    by_cases h : t.target ≤ p.target
    · simp [bubbleRev, h]
    · simp only [bubbleRev, if_neg h, List.mem_cons, mem_bubbleRev (l := rest)]
      tauto

theorem pairwise_bubbleRev {t : EvTimer} :
    ∀ {l : List EvTimer}, List.Pairwise (fun a b => a.target ≤ b.target) l →
      List.Pairwise (fun a b => a.target ≤ b.target) (bubbleRev t l)
  | [], _ => by simp [bubbleRev]
  | p :: rest, h => by
    rcases List.pairwise_cons.mp h with ⟨hp, hrest⟩
    by_cases hc : t.target ≤ p.target
    · rw [bubbleRev, if_pos hc]
      refine List.pairwise_cons.mpr ⟨?_, h⟩
      intro b hb
      rcases List.mem_cons.mp hb with rfl | hb
      · exact hc
      · exact le_trans hc (hp b hb)
    · rw [bubbleRev, if_neg hc]
      refine List.pairwise_cons.mpr ⟨?_, pairwise_bubbleRev hrest⟩
      intro b hb
      rcases mem_bubbleRev.mp hb with rfl | hb
      · exact le_of_lt (lt_of_not_le hc)
      · exact hp b hb

theorem bubble_concat (l : List EvTimer) (t : EvTimer) :
    bubble_last_timer (l ++ [t]) = (bubbleRev t l.reverse).reverse := by
  unfold bubble_last_timer
  rw [show (l ++ [t]).reverse = t :: l.reverse by simp]

theorem mem_bubble_concat {a : EvTimer} {l : List EvTimer} {t : EvTimer} :
    a ∈ bubble_last_timer (l ++ [t]) ↔ a = t ∨ a ∈ l := by
  rw [bubble_concat, List.mem_reverse, mem_bubbleRev, List.mem_reverse]

theorem arrSorted_iff_reverse {l : List EvTimer} :
    arrSorted l ↔ List.Pairwise (fun a b => a.target ≤ b.target) l.reverse := by
  unfold arrSorted
  exact (List.pairwise_reverse (l := l) (R := fun a b => a.target ≤ b.target)).symm

theorem arrSorted_bubble_concat {l : List EvTimer} (h : arrSorted l) (t : EvTimer) :
    arrSorted (bubble_last_timer (l ++ [t])) := by
  rw [bubble_concat, arrSorted_iff_reverse, List.reverse_reverse]
  exact pairwise_bubbleRev (arrSorted_iff_reverse.mp h)

theorem removeFirstById_sublist {tid : Int} :
    ∀ {l l2 : List EvTimer}, removeFirstById tid l = some l2 → l2.Sublist l
  | [], _, h => by simp [removeFirstById] at h
  | t :: rest, l2, h => by
    rw [removeFirstById] at h
    by_cases hc : t.id = tid
    · rw [if_pos hc] at h
      cases h
      exact List.sublist_cons_self t rest
    · rw [if_neg hc] at h
      cases hr : removeFirstById tid rest with
      | none => rw [hr] at h; cases h
      | some l3 =>
        rw [hr] at h
        cases h
        exact (removeFirstById_sublist hr).cons₂ t

theorem arrSorted_applyOp {s : EvState} (h : arrSorted s.timer_list) (o : Op) :
    arrSorted (applyOp s o).timer_list := by
  cases o with
  | createTimer now delay oneshot =>
    rw [applyOp]
    unfold create_timer
    by_cases hc : MAX_TIMERS ≤ s.timer_list.length
    · simp only [hc, if_true]
      exact h
    · simp only [hc, if_false]
      exact arrSorted_bubble_concat h _
  | deleteTimer tid =>
    rw [applyOp]
    unfold delete_timer
    by_cases hc : s.timer_expiring.id = tid
    · simp only [hc, if_true]
      exact h
    · simp only [hc, if_false]
      cases hr : removeFirstById tid s.timer_list with
      | none => exact h
      | some l2 => exact h.sublist (removeFirstById_sublist hr)
  | listenFd fd events =>
    rw [applyOp]
    cases listen_fd fd events s.poll_list with
    | ok l => exact h
    | error e => exact h
  | requestExit => exact h

theorem arrSorted_applyOps :
    ∀ (ops : List Op) {s : EvState}, arrSorted s.timer_list →
      arrSorted (applyOps ops s).timer_list
  | [], _, h => h
  | o :: rest, _, h =>
    arrSorted_applyOps rest (arrSorted_applyOp h o)

theorem arrSorted_expire_after_cb {s2 : EvState} (h : arrSorted s2.timer_list) :
    arrSorted (expire_after_cb s2).1.timer_list := by
  unfold expire_after_cb
  by_cases hr : s2.timer_expiring.removed
  · simp only [hr, if_true]
    exact h
  · simp only [hr, if_false]
    by_cases hc : MAX_TIMERS ≤ s2.timer_list.length
    · simp only [hc, if_true]
      exact h
    · simp only [hc, if_false]
      exact arrSorted_bubble_concat h _

theorem arrSorted_expire_go (prog : CbProg) (now : ℚ) :
    ∀ (fuel : Nat) {s : EvState}, arrSorted s.timer_list →
      arrSorted (expire_go (cbOf prog) now fuel s).1.timer_list
  | 0, s, h => h
  | fuel + 1, s, h => by
    by_cases hx : s.exit_requested
    · rw [expire_go_stop_exit _ _ _ hx]
      exact h
    · rw [Bool.not_eq_true] at hx
      cases ht : s.timer_list.getLast? with
      | none =>
        rw [expire_go_stop_empty _ _ _ hx ht]
        exact h
      | some t =>
        by_cases hd : now < t.target
        · rw [expire_go_stop_notdue _ _ _ hx ht hd]
          exact h
        · rw [expire_go_fire _ _ _ hx ht hd rfl rfl]
          have h1 : arrSorted (fire_setup now s.timer_list.dropLast t s).timer_list :=
            h.sublist (List.dropLast_sublist s.timer_list)
          have h2 : arrSorted ((cbOf prog) t.id
              (fire_setup now s.timer_list.dropLast t s)).timer_list :=
            arrSorted_applyOps _ h1
          have h3 := arrSorted_expire_after_cb h2
          by_cases he : (expire_after_cb ((cbOf prog) t.id
              (fire_setup now s.timer_list.dropLast t s))).2
          · simp only [he, if_true]
            exact h3
          · simp only [he, if_false]
            exact arrSorted_expire_go prog now fuel h3

theorem arrSorted_expire_timers (prog : CbProg) (now : ℚ) {s : EvState}
    (h : arrSorted s.timer_list) :
    arrSorted (expire_timers (cbOf prog) now s).1.timer_list := by
  unfold expire_timers
  have hg := arrSorted_expire_go prog now MAX_EXPIRYS h
  by_cases he : (expire_go (cbOf prog) now MAX_EXPIRYS s).2.2
  · simp only [he, if_true]
    exact hg
  · simp only [he, if_false]
    exact hg

theorem arrSorted_runEvent {s : EvState} (h : arrSorted s.timer_list) (e : LoopEvent) :
    arrSorted (runEvent s e).timer_list := by
  cases e with
  | api o => exact arrSorted_applyOp h o
  | expire now prog => exact arrSorted_expire_timers prog now h

theorem arrSorted_runEvents :
    ∀ (evs : List LoopEvent) {s : EvState}, arrSorted s.timer_list →
      arrSorted (runEvents evs s).timer_list
  | [], _, h => h
  | e :: rest, _, h =>
    arrSorted_runEvents rest (arrSorted_runEvent h e)

/-! Tracking of a disposed timer id through API calls and expiry steps. -/

theorem applyOp_expiring_id (s : EvState) (o : Op) :
    (applyOp s o).timer_expiring.id = s.timer_expiring.id := by
  cases o with
  | createTimer now delay oneshot =>
    rw [applyOp]
    unfold create_timer
    by_cases hc : MAX_TIMERS ≤ s.timer_list.length
    · simp [hc]
    · simp [hc]
  | deleteTimer tid =>
    rw [applyOp]
    unfold delete_timer
    by_cases hc : s.timer_expiring.id = tid
    · simp [hc]
    · simp only [hc, if_false]
      cases hr : removeFirstById tid s.timer_list <;> simp [hr]
  | listenFd fd events =>
    rw [applyOp]
    cases hr : listen_fd fd events s.poll_list <;> simp [hr]
  | requestExit => rfl

theorem applyOps_expiring_id (ops : List Op) :
    ∀ (s : EvState), (applyOps ops s).timer_expiring.id = s.timer_expiring.id := by
  induction ops with
  | nil => intro s; rfl
  | cons o rest ih =>
    intro s
    have : applyOps (o :: rest) s = applyOps rest (applyOp s o) := rfl
    rw [this, ih, applyOp_expiring_id]

theorem applyOp_removed_mono {s : EvState} (h : s.timer_expiring.removed = true)
    (o : Op) : (applyOp s o).timer_expiring.removed = true := by
  cases o with
  | createTimer now delay oneshot =>
    rw [applyOp]
    unfold create_timer
    by_cases hc : MAX_TIMERS ≤ s.timer_list.length
    · simp [hc, h]
    · simp [hc, h]
  | deleteTimer tid =>
    rw [applyOp]
    unfold delete_timer
    by_cases hc : s.timer_expiring.id = tid
    · simp [hc]
    · simp only [hc, if_false]
      cases hr : removeFirstById tid s.timer_list <;> simp [hr, h]
  | listenFd fd events =>
    rw [applyOp]
    cases hr : listen_fd fd events s.poll_list <;> simp [hr, h]
  | requestExit => exact h

theorem applyOps_removed_mono (ops : List Op) :
    ∀ {s : EvState}, s.timer_expiring.removed = true →
      (applyOps ops s).timer_expiring.removed = true := by
  induction ops with
  | nil => intro s h; exact h
  | cons o rest ih =>
    intro s h
    exact ih (applyOp_removed_mono h o)

theorem applyOp_idAbsent {x : Int} {s : EvState} (h : idAbsent x s) (o : Op) :
    idAbsent x (applyOp s o) := by
  obtain ⟨hx1, hxn, hl⟩ := h
  cases o with
  | createTimer now delay oneshot =>
    rw [applyOp]
    unfold create_timer
    by_cases hc : MAX_TIMERS ≤ s.timer_list.length
    · simp only [hc, if_true]
      exact ⟨hx1, hxn, hl⟩
    · simp only [hc, if_false]
      refine ⟨hx1, by simpa using lt_trans hxn (by linarith), ?_⟩
      intro t ht
      rcases mem_bubble_concat.mp ht with rfl | ht
      · simpa using ne_of_gt hxn
      · exact hl t ht
  | deleteTimer tid =>
    rw [applyOp]
    unfold delete_timer
    by_cases hc : s.timer_expiring.id = tid
    · simp only [hc, if_true]
      exact ⟨hx1, hxn, hl⟩
    · simp only [hc, if_false]
      cases hr : removeFirstById tid s.timer_list with
      | none => exact ⟨hx1, hxn, hl⟩
      | some l2 =>
        refine ⟨hx1, hxn, ?_⟩
        intro t ht
        exact hl t ((removeFirstById_sublist hr).subset ht)
  | listenFd fd events =>
    rw [applyOp]
    cases hr : listen_fd fd events s.poll_list with
    | ok l => exact ⟨hx1, hxn, hl⟩
    | error e => exact ⟨hx1, hxn, hl⟩
  | requestExit => exact ⟨hx1, hxn, hl⟩

theorem applyOps_idAbsent (ops : List Op) :
    ∀ {s : EvState}, idAbsent x s → idAbsent x (applyOps ops s) := by
  induction ops with
  | nil => intro s h; exact h
  | cons o rest ih =>
    intro s h
    exact ih (applyOp_idAbsent h o)

theorem applyOp_idGone {x : Int} {s : EvState} (h : idGone x s) (o : Op) :
    idGone x (applyOp s o) := by
  obtain ⟨ha, hexp, hev⟩ := h
  refine ⟨applyOp_idAbsent ha o, ?_, ?_⟩
  · cases o with
    | createTimer now delay oneshot =>
      rw [applyOp]
      unfold create_timer
      by_cases hc : MAX_TIMERS ≤ s.timer_list.length
      · simpa [hc] using hexp
      · simpa [hc] using hexp
    | deleteTimer tid =>
      rw [applyOp]
      unfold delete_timer
      by_cases hc : s.timer_expiring.id = tid
      · simp [hc]
      · simp only [hc, if_false]
        cases hr : removeFirstById tid s.timer_list <;> simpa [hr] using hexp
    | listenFd fd events =>
      rw [applyOp]
      cases hr : listen_fd fd events s.poll_list <;> simpa [hr] using hexp
    | requestExit => exact hexp
  · cases o with
    | createTimer now delay oneshot =>
      rw [applyOp]
      unfold create_timer
      by_cases hc : MAX_TIMERS ≤ s.timer_list.length
      · simpa [hc] using hev
      · simp only [hc, if_false]
        intro hmem
        rcases List.mem_cons.mp hmem with heq | hmem
        · exact absurd heq (ne_of_lt ha.2.1)
        · exact hev hmem
    | deleteTimer tid =>
      rw [applyOp]
      unfold delete_timer
      by_cases hc : s.timer_expiring.id = tid
      · simpa [hc] using hev
      · simp only [hc, if_false]
        cases hr : removeFirstById tid s.timer_list with
        | none => simpa [hr] using hev
        | some l2 =>
          simp only [hr]
          intro hmem
          exact hev (List.mem_filter.mp hmem).1
    | listenFd fd events =>
      rw [applyOp]
      cases hr : listen_fd fd events s.poll_list <;> simpa [hr] using hev
    | requestExit => exact hev

theorem applyOps_idGone (ops : List Op) :
    ∀ {s : EvState}, idGone x s → idGone x (applyOps ops s) := by
  induction ops with
  | nil => intro s h; exact h
  | cons o rest ih =>
    intro s h
    exact ih (applyOp_idGone h o)

theorem expire_after_cb_gone (x : Int) {s2 : EvState} (ha : idAbsent x s2)
    (hid : s2.timer_expiring.id = x) (hrem : s2.timer_expiring.removed = true) :
    (expire_after_cb s2).2 = false ∧ idGone x (expire_after_cb s2).1 := by
  have hbranch : expire_after_cb s2 =
      ({ s2 with eventTimers := s2.eventTimers.filter (fun j => j ≠ s2.timer_expiring.id) },
       false) := by
    unfold expire_after_cb
    rw [hrem]
    simp
  rw [hbranch]
  refine ⟨rfl, ha, fun _ => hrem, ?_⟩
  intro hmem
  have h2 := (List.mem_filter.mp hmem).2
  rw [hid] at h2
  simp at h2

theorem expire_after_cb_idGone {x : Int} {s2 : EvState} (h : idGone x s2) :
    idGone x (expire_after_cb s2).1 ∧
    ((expire_after_cb s2).2 = true → (expire_after_cb s2).1.timer_expiring.id ≠ x) := by
  obtain ⟨ha, hexp, hev⟩ := h
  unfold expire_after_cb
  by_cases hr : s2.timer_expiring.removed
  · simp only [hr, if_true]
    refine ⟨⟨ha, fun _ => hr, ?_⟩, ?_⟩
    · intro hmem
      exact hev (List.mem_filter.mp hmem).1
    · intro hcontra
      cases hcontra
  · have hidne : s2.timer_expiring.id ≠ x := by
      intro he
      exact hr (hexp he)
    simp only [Bool.not_eq_true] at hr
    simp only [hr, Bool.false_eq_true, if_false]
    by_cases hc : MAX_TIMERS ≤ s2.timer_list.length
    · simp only [hc, if_true]
      exact ⟨⟨ha, hexp, hev⟩, fun _ => hidne⟩
    · simp only [hc, if_false]
      refine ⟨⟨⟨ha.1, ha.2.1, ?_⟩, hexp, hev⟩, ?_⟩
      · intro t ht
        rcases mem_bubble_concat.mp ht with rfl | ht
        · exact hidne
        · exact ha.2.2 t ht
      · intro hcontra
        cases hcontra

theorem expire_go_idGone (prog : CbProg) (now : ℚ) :
    ∀ (fuel : Nat) {x : Int} {s : EvState}, idGone x s →
      idGone x (expire_go (cbOf prog) now fuel s).1 ∧
      (∀ e ∈ (expire_go (cbOf prog) now fuel s).2.1,
        e.1 ≠ x ∧ ∀ t ∈ e.2.timer_list, t.id ≠ x) ∧
      ((expire_go (cbOf prog) now fuel s).2.2 = true →
        (expire_go (cbOf prog) now fuel s).1.timer_expiring.id ≠ x)
  | 0, x, s, h => by
    refine ⟨h, by simp [expire_go], ?_⟩
    intro hcontra
    simp [expire_go] at hcontra
  | fuel + 1, x, s, h => by
    by_cases hx : s.exit_requested
    · rw [expire_go_stop_exit _ _ _ hx]
      exact ⟨h, by simp, by simp⟩
    · rw [Bool.not_eq_true] at hx
      cases ht : s.timer_list.getLast? with
      | none =>
        rw [expire_go_stop_empty _ _ _ hx ht]
        exact ⟨h, by simp, by simp⟩
      | some t =>
        by_cases hd : now < t.target
        · rw [expire_go_stop_notdue _ _ _ hx ht hd]
          exact ⟨h, by simp, by simp⟩
        · rw [expire_go_fire _ _ _ hx ht hd rfl rfl]
          have htmem : t ∈ s.timer_list := List.mem_of_mem_getLast? ht
          have htid : t.id ≠ x := h.1.2.2 t htmem
          have h1 : idGone x (fire_setup now s.timer_list.dropLast t s) := by
            refine ⟨⟨h.1.1, h.1.2.1, ?_⟩, ?_, h.2.2⟩
            · intro u hu
              exact h.1.2.2 u ((List.dropLast_sublist s.timer_list).subset hu)
            · unfold fire_setup
              by_cases ho : t.oneshot
              · simp only [ho, if_true]
                intro he
                exact absurd he htid
              · simp only [ho, Bool.false_eq_true, if_false]
                intro he
                exact absurd he htid
          have h2 : idGone x ((cbOf prog) t.id (fire_setup now s.timer_list.dropLast t s)) :=
            applyOps_idGone _ h1
          have h3 := expire_after_cb_idGone h2
          by_cases he : (expire_after_cb ((cbOf prog) t.id
              (fire_setup now s.timer_list.dropLast t s))).2
          · simp only [he, if_true]
            refine ⟨h3.1, ?_, fun _ => h3.2 he⟩
            intro e hmem
            rcases List.mem_singleton.mp hmem with rfl
            refine ⟨htid, ?_⟩
            intro u hu
            exact h1.1.2.2 u hu
          · simp only [he, Bool.false_eq_true, if_false]
            have ih := expire_go_idGone prog now fuel h3.1
            refine ⟨ih.1, ?_, ih.2.2⟩
            intro e hmem
            rcases List.mem_cons.mp hmem with rfl | hmem
            · refine ⟨htid, ?_⟩
              intro u hu
              exact h1.1.2.2 u hu
            · exact ih.2.1 e hmem

theorem expire_timers_eq (cb : Int → EvState → EvState) (now : ℚ) (s : EvState) :
    expire_timers cb now s =
      (if (expire_go cb now MAX_EXPIRYS s).2.2
       then expire_go cb now MAX_EXPIRYS s
       else ({ (expire_go cb now MAX_EXPIRYS s).1 with timer_expiring := zeroTimer },
             (expire_go cb now MAX_EXPIRYS s).2.1, false)) := rfl

theorem fire_setup_expiring_id (now : ℚ) (front : List EvTimer) (t : EvTimer)
    (s : EvState) : (fire_setup now front t s).timer_expiring.id = t.id := by
  unfold fire_setup
  by_cases ho : t.oneshot
  · simp [ho]
  · simp [ho]

/-- Core disposal lemma: when the due timer X at the head of the expiry order
fires first in an expiry round and the state right after its callback has the
expiring slot marked removed (one-shot marking, or a cancel performed by the
callback itself), then X fires exactly once in the round and is absent from
the pending list, the eventTimers store, and every later callback`s view of
the pending list. -/
theorem expire_go_first_fire_gone (prog : CbProg) (now : ℚ) (fuel : Nat)
    {s : EvState} {front : List EvTimer} {X : EvTimer}
    (hlist : s.timer_list = front ++ [X])
    (hdue : X.target ≤ now)
    (hexit : s.exit_requested = false)
    (hxpos : 1 ≤ X.id) (hxlt : X.id < s.timer_next_id)
    (hfront : ∀ t ∈ front, t.id ≠ X.id)
    (hrem : ((cbOf prog) X.id (fire_setup now front X s)).timer_expiring.removed = true) :
    (((expire_go (cbOf prog) now (fuel + 1) s).2.1.map Prod.fst).count X.id = 1) ∧
    (∀ t ∈ (expire_go (cbOf prog) now (fuel + 1) s).1.timer_list, t.id ≠ X.id) ∧
    X.id ∉ (expire_go (cbOf prog) now (fuel + 1) s).1.eventTimers ∧
    ((expire_go (cbOf prog) now (fuel + 1) s).1.timer_expiring.id = X.id →
      (expire_go (cbOf prog) now (fuel + 1) s).1.timer_expiring.removed = true) ∧
    ((expire_go (cbOf prog) now (fuel + 1) s).2.2 = true →
      (expire_go (cbOf prog) now (fuel + 1) s).1.timer_expiring.id ≠ X.id) ∧
    (∀ e ∈ (expire_go (cbOf prog) now (fuel + 1) s).2.1,
      ∀ t ∈ e.2.timer_list, t.id ≠ X.id) := by
  have ht : s.timer_list.getLast? = some X := by rw [hlist]; simp
  have hd : ¬ now < X.target := not_lt.mpr hdue
  have hdrop : s.timer_list.dropLast = front := by rw [hlist]; simp
  have hfire := expire_go_fire (cbOf prog) now fuel hexit ht hd rfl rfl
  rw [hdrop] at hfire
  have habs1 : idAbsent X.id (fire_setup now front X s) :=
    ⟨hxpos, hxlt, fun u hu => hfront u hu⟩
  have habs2 : idAbsent X.id ((cbOf prog) X.id (fire_setup now front X s)) :=
    applyOps_idAbsent _ habs1
  have hid2 : ((cbOf prog) X.id (fire_setup now front X s)).timer_expiring.id = X.id := by
    show (applyOps (prog X.id (fire_setup now front X s))
      (fire_setup now front X s)).timer_expiring.id = X.id
    rw [applyOps_expiring_id]
    exact fire_setup_expiring_id now front X s
  have hg := expire_after_cb_gone X.id habs2 hid2 hrem
  rw [hfire]
  simp only [hg.1, Bool.false_eq_true, if_false]
  have ih := expire_go_idGone prog now fuel hg.2
  refine ⟨?_, ?_, ?_, ?_, ?_, ?_⟩
  · rw [List.map_cons]
    rw [List.count_cons_self]
    have hzero : (List.map Prod.fst (expire_go (cbOf prog) now fuel
        (expire_after_cb ((cbOf prog) X.id (fire_setup now front X s))).1).2.1).count X.id
        = 0 := by
      apply List.count_eq_zero.mpr
      intro hmem
      rcases List.mem_map.mp hmem with ⟨e, he, heq⟩
      exact (ih.2.1 e he).1 heq
    rw [hzero]
  · exact ih.1.1.2.2
  · exact ih.1.2.2
  · exact ih.1.2.1
  · exact ih.2.2
  · intro e hmem
    rcases List.mem_cons.mp hmem with rfl | hmem
    · intro u hu
      exact hfront u hu
    · exact (ih.2.1 e hmem).2

/-- C2: a one-shot timer expired by expire_timers has its callback invoked
exactly once in the round; afterwards it is absent from the pending timer
collection and from the expiring holder, its id-to-callback association has
been deleted from the eventTimers store, and it is never re-inserted: every
later callback invocation in the round already observes a pending list free
of its id.  The callback behaviour is an arbitrary composition of public API
calls. -/
theorem oneshot_timer_fires_once (prog : CbProg) (now : ℚ)
    (s : EvState) (front : List EvTimer) (X : EvTimer)
    (hlist : s.timer_list = front ++ [X])
    (hdue : X.target ≤ now)
    (hone : X.oneshot = true)
    (hexit : s.exit_requested = false)
    (hxpos : 1 ≤ X.id) (hxlt : X.id < s.timer_next_id)
    (hfront : ∀ t ∈ front, t.id ≠ X.id) :
    (((expire_timers (cbOf prog) now s).2.1.map Prod.fst).count X.id = 1) ∧
    (∀ t ∈ (expire_timers (cbOf prog) now s).1.timer_list, t.id ≠ X.id) ∧
    (expire_timers (cbOf prog) now s).1.timer_expiring.id ≠ X.id ∧
    X.id ∉ (expire_timers (cbOf prog) now s).1.eventTimers ∧
    (∀ e ∈ (expire_timers (cbOf prog) now s).2.1, ∀ t ∈ e.2.timer_list, t.id ≠ X.id) := by
  have hrem1 : (fire_setup now front X s).timer_expiring.removed = true := by
    unfold fire_setup
    simp [hone]
  have hrem : ((cbOf prog) X.id (fire_setup now front X s)).timer_expiring.removed = true :=
    applyOps_removed_mono _ hrem1
  have hgo := expire_go_first_fire_gone prog now 9 hlist hdue hexit hxpos hxlt hfront hrem
  have hME : MAX_EXPIRYS = 9 + 1 := rfl
  rw [expire_timers_eq, hME]
  by_cases herr : (expire_go (cbOf prog) now (9 + 1) s).2.2
  · simp only [herr, if_true]
    exact ⟨hgo.1, hgo.2.1, hgo.2.2.2.2.1 herr, hgo.2.2.1, hgo.2.2.2.2.2⟩
  · simp only [herr, Bool.false_eq_true, if_false]
    refine ⟨hgo.1, hgo.2.1, ?_, hgo.2.2.1, hgo.2.2.2.2.2⟩
    show zeroTimer.id ≠ X.id
    unfold zeroTimer
    intro h0
    rw [← h0] at hxpos
    exact absurd hxpos (by norm_num)

/-- C3: cancelling the timer currently held in the expiring holder (its
callback running) returns found and only marks it removed, and a repeating
timer whose own callback cancels it is discarded at the end of that callback:
its association is deleted, it is not re-inserted, and it never fires again
in the round. -/
theorem cancel_expiring_discards_timer (prog : CbProg) (now : ℚ)
    (s : EvState) (front : List EvTimer) (Y : EvTimer)
    (hlist : s.timer_list = front ++ [Y])
    (hdue : Y.target ≤ now)
    (hexit : s.exit_requested = false)
    (hypos : 1 ≤ Y.id) (hylt : Y.id < s.timer_next_id)
    (hfront : ∀ t ∈ front, t.id ≠ Y.id)
    (hcb : ((cbOf prog) Y.id (fire_setup now front Y s)).timer_expiring.removed = true) :
    (∀ (u : EvState) (tid : Int), u.timer_expiring.id = tid →
      delete_timer tid u =
        (true, { u with timer_expiring := { u.timer_expiring with removed := true } })) ∧
    (((expire_timers (cbOf prog) now s).2.1.map Prod.fst).count Y.id = 1) ∧
    (∀ t ∈ (expire_timers (cbOf prog) now s).1.timer_list, t.id ≠ Y.id) ∧
    (expire_timers (cbOf prog) now s).1.timer_expiring.id ≠ Y.id ∧
    Y.id ∉ (expire_timers (cbOf prog) now s).1.eventTimers ∧
    (∀ e ∈ (expire_timers (cbOf prog) now s).2.1, ∀ t ∈ e.2.timer_list, t.id ≠ Y.id) := by
  have hdel : ∀ (u : EvState) (tid : Int), u.timer_expiring.id = tid →
      delete_timer tid u =
        (true, { u with timer_expiring := { u.timer_expiring with removed := true } }) := by
    intro u tid h
    unfold delete_timer
    rw [if_pos h]
  have hgo := expire_go_first_fire_gone prog now 9 hlist hdue hexit hypos hylt hfront hcb
  have hME : MAX_EXPIRYS = 9 + 1 := rfl
  rw [expire_timers_eq, hME]
  by_cases herr : (expire_go (cbOf prog) now (9 + 1) s).2.2
  · simp only [herr, if_true]
    exact ⟨hdel, hgo.1, hgo.2.1, hgo.2.2.2.2.1 herr, hgo.2.2.1, hgo.2.2.2.2.2⟩
  · simp only [herr, Bool.false_eq_true, if_false]
    refine ⟨hdel, hgo.1, hgo.2.1, ?_, hgo.2.2.1, hgo.2.2.2.2.2⟩
    show zeroTimer.id ≠ Y.id
    unfold zeroTimer
    intro h0
    rw [← h0] at hypos
    exact absurd hypos (by norm_num)

theorem expire_timers_log (cb : Int → EvState → EvState) (now : ℚ) (s : EvState) :
    (expire_timers cb now s).2.1 = (expire_go cb now MAX_EXPIRYS s).2.1 := by
  rw [expire_timers_eq]
  by_cases herr : (expire_go cb now MAX_EXPIRYS s).2.2
  · rw [if_pos herr]
  · rw [if_neg herr]

theorem expire_go_log_target (cb : Int → EvState → EvState) (now : ℚ) :
    ∀ (fuel : Nat) (s : EvState), ∀ e ∈ (expire_go cb now fuel s).2.1,
      e.2.timer_expiring.oneshot = false →
      e.2.timer_expiring.target = now + e.2.timer_expiring.delay
  | 0, s => by simp [expire_go]
  | fuel + 1, s => by
    by_cases hx : s.exit_requested
    · rw [expire_go_stop_exit _ _ _ hx]
      simp
    · rw [Bool.not_eq_true] at hx
      cases ht : s.timer_list.getLast? with
      | none =>
        rw [expire_go_stop_empty _ _ _ hx ht]
        simp
      | some t =>
        by_cases hd : now < t.target
        · rw [expire_go_stop_notdue _ _ _ hx ht hd]
          simp
        · rw [expire_go_fire _ _ _ hx ht hd rfl rfl]
          have hfirst : ∀ h1 : (fire_setup now s.timer_list.dropLast t
              s).timer_expiring.oneshot = false,
              (fire_setup now s.timer_list.dropLast t s).timer_expiring.target =
                now + (fire_setup now s.timer_list.dropLast t s).timer_expiring.delay := by
            unfold fire_setup
            by_cases ho : t.oneshot
            · simp [ho]
            · simp [ho]
          by_cases he : (expire_after_cb (cb t.id
              (fire_setup now s.timer_list.dropLast t s))).2
          · simp only [he, if_true]
            intro e hmem
            rcases List.mem_singleton.mp hmem with rfl
            exact hfirst
          · simp only [he, Bool.false_eq_true, if_false]
            intro e hmem
            rcases List.mem_cons.mp hmem with rfl | hmem
            · exact hfirst
            · exact expire_go_log_target cb now fuel _ e hmem

theorem expire_go_log_length (cb : Int → EvState → EvState) (now : ℚ) :
    ∀ (fuel : Nat) (s : EvState), (expire_go cb now fuel s).2.1.length ≤ fuel
  | 0, s => by simp [expire_go]
  | fuel + 1, s => by
    by_cases hx : s.exit_requested
    · rw [expire_go_stop_exit _ _ _ hx]
      simp
    · rw [Bool.not_eq_true] at hx
      cases ht : s.timer_list.getLast? with
      | none =>
        rw [expire_go_stop_empty _ _ _ hx ht]
        simp
      | some t =>
        by_cases hd : now < t.target
        · rw [expire_go_stop_notdue _ _ _ hx ht hd]
          simp
        · rw [expire_go_fire _ _ _ hx ht hd rfl rfl]
          by_cases he : (expire_after_cb (cb t.id
              (fire_setup now s.timer_list.dropLast t s))).2
          · simp only [he, if_true]
            simp [Nat.succ_le_succ]
          · simp only [he, Bool.false_eq_true, if_false]
            simpa using Nat.succ_le_succ (expire_go_log_length cb now fuel _)

theorem expire_go_log_exit (cb : Int → EvState → EvState) (now : ℚ) :
    ∀ (fuel : Nat) (s : EvState), ∀ e ∈ (expire_go cb now fuel s).2.1,
      e.2.exit_requested = false
  | 0, s => by simp [expire_go]
  | fuel + 1, s => by
    by_cases hx : s.exit_requested
    · rw [expire_go_stop_exit _ _ _ hx]
      simp
    · rw [Bool.not_eq_true] at hx
      cases ht : s.timer_list.getLast? with
      | none =>
        rw [expire_go_stop_empty _ _ _ hx ht]
        simp
      | some t =>
        by_cases hd : now < t.target
        · rw [expire_go_stop_notdue _ _ _ hx ht hd]
          simp
        · rw [expire_go_fire _ _ _ hx ht hd rfl rfl]
          have hfirst : (fire_setup now s.timer_list.dropLast t s).exit_requested = false := hx
          by_cases he : (expire_after_cb (cb t.id
              (fire_setup now s.timer_list.dropLast t s))).2
          · simp only [he, if_true]
            intro e hmem
            rcases List.mem_singleton.mp hmem with rfl
            exact hfirst
          · simp only [he, Bool.false_eq_true, if_false]
            intro e hmem
            rcases List.mem_cons.mp hmem with rfl | hmem
            · exact hfirst
            · exact expire_go_log_exit cb now fuel _ e hmem

theorem applyOp_exit_mono {u : EvState} (h : u.exit_requested = true) (o : Op) :
    (applyOp u o).exit_requested = true := by
  cases o with
  | createTimer now delay oneshot =>
    rw [applyOp]
    unfold create_timer
    by_cases hc : MAX_TIMERS ≤ u.timer_list.length
    · simp [hc, h]
    · simp [hc, h]
  | deleteTimer tid =>
    rw [applyOp]
    unfold delete_timer
    by_cases hc : u.timer_expiring.id = tid
    · simp [hc, h]
    · simp only [hc, if_false]
      cases hr : removeFirstById tid u.timer_list <;> simp [hr, h]
  | listenFd fd events =>
    rw [applyOp]
    cases hr : listen_fd fd events u.poll_list <;> simp [hr, h]
  | requestExit => rfl

/-- C7: one call to expire_timers invokes at most MAX_EXPIRYS timer
callbacks, no matter what the callbacks do; every invocation happens in a
state in which the global exit request flag is not set (so once the flag is
raised — and no public API operation can ever lower it — no further callback
is invoked in that call); and a call entered with the flag already raised
invokes no callback at all. -/
theorem expire_timers_bounded_and_exit (cb : Int → EvState → EvState) (now : ℚ)
    (s : EvState) :
    (expire_timers cb now s).2.1.length ≤ MAX_EXPIRYS ∧
    (∀ e ∈ (expire_timers cb now s).2.1, e.2.exit_requested = false) ∧
    (s.exit_requested = true → (expire_timers cb now s).2.1 = []) ∧
    (∀ (ops : List Op) (u : EvState), u.exit_requested = true →
      (applyOps ops u).exit_requested = true) := by
  refine ⟨?_, ?_, ?_, ?_⟩
  · rw [expire_timers_log]
    exact expire_go_log_length cb now MAX_EXPIRYS s
  · rw [expire_timers_log]
    exact expire_go_log_exit cb now MAX_EXPIRYS s
  · intro hx
    rw [expire_timers_log]
    have h9 : MAX_EXPIRYS = 9 + 1 := rfl
    rw [h9, expire_go_stop_exit cb now 9 hx]
  · intro ops
    induction ops with
    | nil => intro u h; exact h
    | cons o rest ih =>
      intro u h
      exact ih _ (applyOp_exit_mono h o)

/-- Concrete expiry round: a repeating timer with target 5 and delay 10,
fired at now = 7 by a callback that requests exit, is re-queued with target
7 + 10.  The exit request halts the loop before a second target comparison,
which keeps the whole computation kernel-reducible. -/
theorem expire_concrete_repeat :
    expire_timers (cbOf (fun _ _ => [Op.requestExit])) 7
        ⟨[⟨1, 5, 10, false, false⟩], zeroTimer, 2, [1], [], false⟩ =
      (⟨[⟨1, 7 + 10, 10, false, false⟩], zeroTimer, 2, [1], [], true⟩,
       [((1 : Int), ⟨[], ⟨1, 7 + 10, 10, false, false⟩, 2, [1], [], false⟩)], false) := rfl

/-- C6: every repeating (non-oneshot) timer expired by expire_timers has its
next target recomputed as now + delay, where now is the clock value of the
expiry cycle; the closed conjunct separates this from the previous-target +
delay reading: a repeating timer with target 5 and delay 10 fired at now = 7
is re-queued with target 17 = 7 + 10, not 15 = 5 + 10. -/
theorem repeating_timer_target_now_plus_delay (cb : Int → EvState → EvState)
    (now : ℚ) (s : EvState) :
    (∀ e ∈ (expire_timers cb now s).2.1,
      e.2.timer_expiring.oneshot = false →
      e.2.timer_expiring.target = now + e.2.timer_expiring.delay) ∧
    ((expire_timers (cbOf (fun _ _ => [Op.requestExit])) 7
        ⟨[⟨1, 5, 10, false, false⟩], zeroTimer, 2, [1], [], false⟩).1.timer_list.map
          (fun t => t.target) = [17] ∧
      (7 : ℚ) + 10 = 17 ∧ (5 : ℚ) + 10 ≠ 17) := by
  refine ⟨?_, ?_, by norm_num, by norm_num⟩
  · rw [expire_timers_log]
    exact expire_go_log_target cb now MAX_EXPIRYS s
  · rw [expire_concrete_repeat]
    show [(7 : ℚ) + 10] = [17]
    norm_num

/-! Reactor-loop lemmas. -/

theorem dispatch_go_succ (fdcb : Int → Int → EvState → EvState × Bool)
    (diag : Option Int) (i rem : Nat) (s : EvState) :
    dispatch_go fdcb diag i (rem + 1) s =
      (match s.poll_list[i]? with
       | none => dispatch_go fdcb diag (i + 1) rem s
       | some pfd =>
         if pfd.fd = 0 then dispatch_go fdcb diag (i + 1) rem s
         else if pfd.revents ≠ 0 then
           let c := fdcb pfd.fd pfd.revents s
           let s2 := { c.1 with poll_list := clearRevAt i c.1.poll_list }
           let r := dispatch_go fdcb diag (i + 1) rem s2
           (r.1, (pfd.fd, pfd.revents) :: r.2.1,
             (if c.2 then [diag] else []) ++ r.2.2)
         else dispatch_go fdcb diag (i + 1) rem s) := rfl

theorem dispatch_go_no_revents (fdcb : Int → Int → EvState → EvState × Bool)
    (diag : Option Int) :
    ∀ (rem i : Nat) (s : EvState), (∀ p ∈ s.poll_list, p.revents = 0) →
      dispatch_go fdcb diag i rem s = (s, [], []) := by
  intro rem
  induction rem with
  | zero => intro i s h; rfl
  | succ rem ih =>
    intro i s h
    rw [dispatch_go_succ]
    cases hp : s.poll_list[i]? with
    | none => exact ih (i + 1) s h
    | some pfd =>
      have hmem : pfd ∈ s.poll_list := by
        obtain ⟨hi, rfl⟩ := List.getElem?_eq_some.mp hp
        exact List.getElem_mem hi
      have hrv : pfd.revents = 0 := h pfd hmem
      by_cases hfd : pfd.fd = 0
      · simp only [hfd, if_true]
        exact ih (i + 1) s h
      · have hnrv : ¬ pfd.revents ≠ 0 := by simp [hrv]
        simp only [hfd, if_false, hnrv]
        exact ih (i + 1) s h

theorem applyRevents_nil : ∀ l : List PollFd, applyRevents l [] = l
  | [] => rfl
  | _ :: _ => rfl

theorem dispatch_go_zero (fdcb : Int → Int → EvState → EvState × Bool)
    (diag : Option Int) (i : Nat) (s : EvState) :
    dispatch_go fdcb diag i 0 s = (s, [], []) := rfl

theorem dispatch_go_singleton_fail (fdcb : Int → Int → EvState → EvState × Bool)
    (diag : Option Int) (fd ev rv : Int) (u : EvState)
    (hu : u.poll_list = [⟨fd, ev, rv⟩])
    (hfd : ¬ fd = 0) (hrv : ¬ rv = 0)
    (hfail : (fdcb fd rv u).2 = true) :
    dispatch_go fdcb diag 0 1 u =
      ({ (fdcb fd rv u).1 with poll_list := clearRevAt 0 (fdcb fd rv u).1.poll_list },
       [(fd, rv)], [diag]) := by
  have h01 : dispatch_go fdcb diag 0 1 u = dispatch_go fdcb diag 0 (0 + 1) u := rfl
  rw [h01, dispatch_go_succ]
  have hget : u.poll_list[0]? = some ⟨fd, ev, rv⟩ := by rw [hu]; rfl
  rw [hget]
  dsimp only
  rw [if_neg hfd, if_pos hrv, hfail, dispatch_go_zero]
  rfl

/-- Computation of one loop iteration on a state with no pending timers, the
exit flag clear, and a nonempty poll list of live descriptors: the loop
reaches the poll with timeout MAX_WAIT and dispatches with a NULL (none)
nearest-timer pointer. -/
theorem eventloop_iter_no_timers (cb : Int → EvState → EvState)
    (pollO : Int → Option (Nat × List Int))
    (fdcb : Int → Int → EvState → EvState × Bool)
    (now1 now2 : ℚ) (s : EvState)
    (hs : s.timer_list = [])
    (hexit : s.exit_requested = false)
    (hne : ¬ s.poll_list.length = 0)
    (hfd : ∀ p ∈ s.poll_list, p.fd ≠ 0) :
    eventloop_iter cb pollO fdcb now1 now2 s =
      ⟨false,
       (dispatch_go fdcb none 0
          (if (doPoll (pollO ⌊MAX_WAIT⌋) s.poll_list).1 = 0 then 0
           else (doPoll (pollO ⌊MAX_WAIT⌋) s.poll_list).2.length)
          { s with timer_expiring := zeroTimer,
                   poll_list := (doPoll (pollO ⌊MAX_WAIT⌋) s.poll_list).2 }).1,
       true, [],
       (dispatch_go fdcb none 0
          (if (doPoll (pollO ⌊MAX_WAIT⌋) s.poll_list).1 = 0 then 0
           else (doPoll (pollO ⌊MAX_WAIT⌋) s.poll_list).2.length)
          { s with timer_expiring := zeroTimer,
                   poll_list := (doPoll (pollO ⌊MAX_WAIT⌋) s.poll_list).2 }).2.1,
       (dispatch_go fdcb none 0
          (if (doPoll (pollO ⌊MAX_WAIT⌋) s.poll_list).1 = 0 then 0
           else (doPoll (pollO ⌊MAX_WAIT⌋) s.poll_list).2.length)
          { s with timer_expiring := zeroTimer,
                   poll_list := (doPoll (pollO ⌊MAX_WAIT⌋) s.poll_list).2 }).2.2⟩ := by
  have h9 : MAX_EXPIRYS = 9 + 1 := rfl
  have hexp : expire_timers cb now1 s = ({ s with timer_expiring := zeroTimer }, [], false) := by
    rw [expire_timers_eq, h9, expire_go_stop_empty cb now1 9 hexit (by rw [hs]; rfl)]
    rfl
  have hcompact : compact_poll_list s.poll_list = s.poll_list := by
    unfold compact_poll_list
    apply List.filter_eq_self.mpr
    intro p hp
    simpa using hfd p hp
  unfold eventloop_iter
  rw [hexp]
  simp only [hexit, Bool.false_eq_true, if_false]
  unfold find_nearest_timer
  simp only [hcompact, hs, List.getLast?_nil, hne, if_false]
  rfl

/-- C8: in every loop iteration in which, after timer expiry and poll-list
compaction, there are no pending timers and no watched descriptors, the loop
terminates without calling poll and without invoking any fd callback; and
once an iteration stops the loop, eventloop_run performs no further
iteration: the logs of the stopping iteration are final. -/
theorem loop_stops_when_idle :
    (∀ (cb : Int → EvState → EvState) (pollO : Int → Option (Nat × List Int))
       (fdcb : Int → Int → EvState → EvState × Bool) (now1 now2 : ℚ) (s : EvState),
      (expire_timers cb now1 s).2.2 = false →
      (expire_timers cb now1 s).1.exit_requested = false →
      (expire_timers cb now1 s).1.timer_list = [] →
      compact_poll_list (expire_timers cb now1 s).1.poll_list = [] →
      (eventloop_iter cb pollO fdcb now1 now2 s).stop = true ∧
      (eventloop_iter cb pollO fdcb now1 now2 s).polled = false ∧
      (eventloop_iter cb pollO fdcb now1 now2 s).fdLog = []) ∧
    (∀ (cb : Int → EvState → EvState) (pollO : Int → Option (Nat × List Int))
       (fdcb : Int → Int → EvState → EvState × Bool) (clk : Nat → ℚ × ℚ)
       (fuel : Nat) (s : EvState),
      (eventloop_iter cb pollO fdcb (clk fuel).1 (clk fuel).2 s).stop = true →
      eventloop_run cb pollO fdcb clk (fuel + 1) s =
        ((eventloop_iter cb pollO fdcb (clk fuel).1 (clk fuel).2 s).state,
         (eventloop_iter cb pollO fdcb (clk fuel).1 (clk fuel).2 s).expLog,
         (eventloop_iter cb pollO fdcb (clk fuel).1 (clk fuel).2 s).fdLog)) := by
  constructor
  · intro cb pollO fdcb now1 now2 s herr hx hlist hcomp
    unfold eventloop_iter
    simp only [herr, Bool.false_eq_true, if_false, hx]
    unfold find_nearest_timer
    simp only [hcomp, hlist, List.getLast?_nil, List.length_nil, if_true]
    exact ⟨by trivial, by trivial, by trivial⟩
  · intro cb pollO fdcb clk fuel s hstop
    unfold eventloop_run
    simp [hstop]

theorem listen_fd_update_live (fd events : Int) :
    ∀ {l l2 : List PollFd}, (∀ p ∈ l, p.fd ≠ 0 → p.revents = 0) →
      listen_fd_update fd events l = some l2 →
      ∀ p ∈ l2, p.fd ≠ 0 → p.revents = 0
  | [], _, _, h2 => by cases h2
  | q :: qs, l2, h, h2 => by
    rw [listen_fd_update] at h2
    by_cases hc : q.fd = fd
    · rw [if_pos hc] at h2
      cases h2
      intro p hp
      rcases List.mem_cons.mp hp with rfl | hp
      · by_cases he : events = 0
        · simp only [he, if_true]
          intro hfd
          exact absurd rfl hfd
        · simp only [he, if_false]
          intro hfd
          exact h q (List.mem_cons_self q qs) hfd
      · exact h p (List.mem_cons_of_mem q hp)
    · rw [if_neg hc] at h2
      cases hr : listen_fd_update fd events qs with
      | none => rw [hr] at h2; cases h2
      | some l3 =>
        rw [hr] at h2
        cases h2
        intro p hp
        rcases List.mem_cons.mp hp with rfl | hp
        · exact h p (List.mem_cons_self p qs)
        · exact listen_fd_update_live fd events
            (fun r hr2 => h r (List.mem_cons_of_mem q hr2)) hr p hp

theorem listen_fd_live (fd events : Int) {l l2 : List PollFd}
    (h : ∀ p ∈ l, p.fd ≠ 0 → p.revents = 0)
    (h2 : listen_fd fd events l = .ok l2) :
    ∀ p ∈ l2, p.fd ≠ 0 → p.revents = 0 := by
  unfold listen_fd at h2
  cases hu : listen_fd_update fd events l with
  | some l3 =>
    rw [hu] at h2
    injection h2 with h3
    subst h3
    exact listen_fd_update_live fd events h hu
  | none =>
    rw [hu] at h2
    dsimp only at h2
    by_cases hc : MAX_FDS ≤ l.length
    · rw [if_pos hc] at h2
      cases h2
    · rw [if_neg hc] at h2
      injection h2 with h3
      subst h3
      intro p hp
      rcases List.mem_append.mp hp with hp | hp
      · exact h p hp
      · rcases List.mem_singleton.mp hp with rfl
        intro hfd
        rfl

theorem applyOp_live {s : EvState}
    (h : ∀ p ∈ s.poll_list, p.fd ≠ 0 → p.revents = 0) (o : Op) :
    ∀ p ∈ (applyOp s o).poll_list, p.fd ≠ 0 → p.revents = 0 := by
  cases o with
  | createTimer now delay oneshot =>
    rw [applyOp]
    unfold create_timer
    by_cases hc : MAX_TIMERS ≤ s.timer_list.length
    · simpa [hc] using h
    · simpa [hc] using h
  | deleteTimer tid =>
    rw [applyOp]
    unfold delete_timer
    by_cases hc : s.timer_expiring.id = tid
    · simpa [hc] using h
    · simp only [hc, if_false]
      cases hr : removeFirstById tid s.timer_list <;> simpa [hr] using h
  | listenFd fd events =>
    rw [applyOp]
    cases hr : listen_fd fd events s.poll_list with
    | error e => exact h
    | ok l2 => exact listen_fd_live fd events h hr
  | requestExit => exact h

theorem applyOps_live (ops : List Op) :
    ∀ {s : EvState}, (∀ p ∈ s.poll_list, p.fd ≠ 0 → p.revents = 0) →
      ∀ p ∈ (applyOps ops s).poll_list, p.fd ≠ 0 → p.revents = 0 := by
  induction ops with
  | nil => intro s h; exact h
  | cons o rest ih =>
    intro s h
    exact ih (applyOp_live h o)

theorem expire_after_cb_poll_list (s2 : EvState) :
    (expire_after_cb s2).1.poll_list = s2.poll_list := by
  unfold expire_after_cb
  by_cases hr : s2.timer_expiring.removed
  · simp [hr]
  · simp only [hr, Bool.false_eq_true, if_false]
    by_cases hc : MAX_TIMERS ≤ s2.timer_list.length
    · simp [hc]
    · simp [hc]

theorem expire_go_live (prog : CbProg) (now : ℚ) :
    ∀ (fuel : Nat) {s : EvState}, (∀ p ∈ s.poll_list, p.fd ≠ 0 → p.revents = 0) →
      ∀ p ∈ (expire_go (cbOf prog) now fuel s).1.poll_list, p.fd ≠ 0 → p.revents = 0
  | 0, _, h => h
  | fuel + 1, s, h => by
    by_cases hx : s.exit_requested
    · rw [expire_go_stop_exit _ _ _ hx]
      exact h
    · rw [Bool.not_eq_true] at hx
      cases ht : s.timer_list.getLast? with
      | none =>
        rw [expire_go_stop_empty _ _ _ hx ht]
        exact h
      | some t =>
        by_cases hd : now < t.target
        · rw [expire_go_stop_notdue _ _ _ hx ht hd]
          exact h
        · rw [expire_go_fire _ _ _ hx ht hd rfl rfl]
          have h2 : ∀ p ∈ ((cbOf prog) t.id
              (fire_setup now s.timer_list.dropLast t s)).poll_list,
              p.fd ≠ 0 → p.revents = 0 :=
            applyOps_live _ h
          have h3 : ∀ p ∈ (expire_after_cb ((cbOf prog) t.id
              (fire_setup now s.timer_list.dropLast t s))).1.poll_list,
              p.fd ≠ 0 → p.revents = 0 := by
            rw [expire_after_cb_poll_list]
            exact h2
          by_cases he : (expire_after_cb ((cbOf prog) t.id
              (fire_setup now s.timer_list.dropLast t s))).2
          · simp only [he, if_true]
            exact h3
          · simp only [he, Bool.false_eq_true, if_false]
            exact expire_go_live prog now fuel h3

theorem expire_timers_live (prog : CbProg) (now : ℚ) {s : EvState}
    (h : ∀ p ∈ s.poll_list, p.fd ≠ 0 → p.revents = 0) :
    ∀ p ∈ (expire_timers (cbOf prog) now s).1.poll_list, p.fd ≠ 0 → p.revents = 0 := by
  rw [expire_timers_eq]
  have hg := expire_go_live prog now MAX_EXPIRYS h
  by_cases he : (expire_go (cbOf prog) now MAX_EXPIRYS s).2.2
  · simp only [he, if_true]
    exact hg
  · simp only [he, Bool.false_eq_true, if_false]
    exact hg

/-- C5: when the blocking wait primitive returns an error (a negative
return, which writes no revents), every reactor-loop iteration behaves
exactly as if zero descriptors were ready.  The first conjunct is the
dispatch-pass mechanism: over entries with no pending revents it invokes
nothing and changes nothing.  The second conjunct settles the claim at
iteration level for an arbitrary state — pending timers included — whose
live poll entries carry revents 0 at iteration entry (the loop invariant:
entries are created with revents 0, dispatch clears every delivered entry,
and only tombstoned leftovers, compacted away before the next poll, can keep
stale revents): with an error-returning wait primitive the iteration is
equal, as a whole, to the same iteration with a zero-ready wait primitive;
it invokes no readiness callback, performs no failure-diagnostic read, and
whenever it reached the wait at all it does not stop the loop, so the loop
proceeds to the next iteration. -/
theorem poll_error_no_dispatch :
    (∀ (fdcb : Int → Int → EvState → EvState × Bool) (diag : Option Int)
       (rem i : Nat) (s : EvState),
      (∀ p ∈ s.poll_list, p.revents = 0) →
      dispatch_go fdcb diag i rem s = (s, [], [])) ∧
    (∀ (prog : CbProg) (pollE poll0 : Int → Option (Nat × List Int))
       (fdcb : Int → Int → EvState → EvState × Bool) (now1 now2 : ℚ) (s : EvState),
      (∀ t, pollE t = none) →
      (∀ t, poll0 t = some (0, [])) →
      (∀ p ∈ s.poll_list, p.fd ≠ 0 → p.revents = 0) →
      eventloop_iter (cbOf prog) pollE fdcb now1 now2 s =
        eventloop_iter (cbOf prog) poll0 fdcb now1 now2 s ∧
      (eventloop_iter (cbOf prog) pollE fdcb now1 now2 s).fdLog = [] ∧
      (eventloop_iter (cbOf prog) pollE fdcb now1 now2 s).errReads = [] ∧
      ((eventloop_iter (cbOf prog) pollE fdcb now1 now2 s).polled = true →
        (eventloop_iter (cbOf prog) pollE fdcb now1 now2 s).stop = false)) := by
  constructor
  · exact fun fdcb diag rem i s h => dispatch_go_no_revents fdcb diag rem i s h
  · intro prog pollE poll0 fdcb now1 now2 s hE h0 hrv
    have hlive := expire_timers_live prog now1 hrv
    simp only [eventloop_iter]
    rcases hexp : expire_timers (cbOf prog) now1 s with ⟨s1, lg, err⟩
    rw [hexp] at hlive
    obtain ⟨tl, te, ni, evts, pl, ex⟩ := s1
    dsimp only at hlive ⊢
    by_cases herr : err = true
    · subst herr
      exact ⟨rfl, rfl, rfl, fun hp => Bool.noConfusion hp⟩
    · rw [Bool.not_eq_true] at herr
      subst herr
      by_cases hx : ex = true
      · subst hx
        exact ⟨rfl, rfl, rfl, fun hp => Bool.noConfusion hp⟩
      · rw [Bool.not_eq_true] at hx
        subst hx
        have hrv2 : ∀ p ∈ compact_poll_list pl, p.revents = 0 := by
          intro p hp
          unfold compact_poll_list at hp
          have hm := List.mem_filter.mp hp
          exact hlive p hm.1 (by simpa using hm.2)
        have hdE : ∀ tmo : Int, doPoll (pollE tmo) (compact_poll_list pl) =
            (-1, compact_poll_list pl) := by
          intro tmo
          rw [hE]
          rfl
        have hd0 : ∀ tmo : Int, doPoll (poll0 tmo) (compact_poll_list pl) =
            (0, compact_poll_list pl) := by
          intro tmo
          rw [h0]
          show ((0 : Int), applyRevents (compact_poll_list pl) []) = _
          rw [applyRevents_nil]
        have hdisp : ∀ diag : Option Int,
            dispatch_go fdcb diag 0 (compact_poll_list pl).length
              ⟨tl, te, ni, evts, compact_poll_list pl, false⟩ =
            ((⟨tl, te, ni, evts, compact_poll_list pl, false⟩ : EvState), [], []) :=
          fun diag => dispatch_go_no_revents fdcb diag (compact_poll_list pl).length 0
            _ (fun p hp => hrv2 p hp)
        cases hnt : find_nearest_timer ⟨tl, te, ni, evts, compact_poll_list pl, false⟩ with
        | some t =>
          norm_num [hdE, hd0, hdisp, dispatch_go_zero]
        | none =>
          by_cases hlen : (compact_poll_list pl).length = 0
          · simp only [hlen]
            exact ⟨rfl, rfl, rfl, fun hp => Bool.noConfusion hp⟩
          · rw [if_neg hlen]
            norm_num [hdE, hd0, hdisp, dispatch_go_zero]

/-- C10: with zero pending timers and a watched descriptor whose readiness
callback fails, the dispatch error branch executes while the most recent
nearest-timer lookup returned NULL: in this total embedding the diagnostic
read of the timer id is recorded as none, which in the C code is a read of
t->id through a NULL pointer. -/
theorem fd_error_branch_null_nearest (cb : Int → EvState → EvState)
    (pollO : Int → Option (Nat × List Int))
    (fdcb : Int → Int → EvState → EvState × Bool)
    (now1 now2 : ℚ) (fd ev rv : Int) (s : EvState)
    (hs : s.timer_list = [])
    (hexit : s.exit_requested = false)
    (hpoll : s.poll_list = [⟨fd, ev, 0⟩])
    (hfd : fd ≠ 0)
    (hrv : rv ≠ 0)
    (hO : ∀ t, pollO t = some (1, [rv]))
    (hfail : ∀ a b st, (fdcb a b st).2 = true) :
    find_nearest_timer s = none ∧
    (eventloop_iter cb pollO fdcb now1 now2 s).errReads = [none] ∧
    (eventloop_iter cb pollO fdcb now1 now2 s).fdLog = [(fd, rv)] := by
  have hnofd : ∀ p ∈ s.poll_list, p.fd ≠ 0 := by
    intro p hp
    rw [hpoll] at hp
    rcases List.mem_singleton.mp hp with rfl
    exact hfd
  have hne : ¬ s.poll_list.length = 0 := by
    rw [hpoll]
    simp
  have hiter := eventloop_iter_no_timers cb pollO fdcb now1 now2 s hs hexit hne hnofd
  have hdp1 : (doPoll (pollO ⌊MAX_WAIT⌋) s.poll_list).1 = 1 := by
    rw [hO, hpoll]
    rfl
  have hdp2 : (doPoll (pollO ⌊MAX_WAIT⌋) s.poll_list).2 = [⟨fd, ev, rv⟩] := by
    rw [hO, hpoll]
    rfl
  refine ⟨by unfold find_nearest_timer; rw [hs]; rfl, ?_, ?_⟩ <;>
  · rw [hiter]
    dsimp only
    rw [hdp1, hdp2]
    have hn : (if ((1 : Int) = 0) then (0 : Nat)
        else [(⟨fd, ev, rv⟩ : PollFd)].length) = 1 := rfl
    rw [hn]
    rw [dispatch_go_singleton_fail fdcb none fd ev rv _ rfl hfd hrv (hfail fd rv _)]

/-- C1: for every sequence of createTimer and deleteTimer operations —
together with any other public API calls and any number of expire_timers
rounds with API-driven callbacks, which re-insert repeating timers — the
pending timer collection is sorted ascending by target (soonest-expiry entry
first) after every operation. -/
theorem timer_collection_sorted (evs : List LoopEvent) :
    timersSortedAsc (pendingByExpiry (runEvents evs initEvState)) := by
  have h0 : arrSorted initEvState.timer_list := List.Pairwise.nil
  have h := arrSorted_runEvents evs h0
  exact arrSorted_iff_reverse.mp h

/-- C4 (code bug): deleteTimer of the never-assigned id 0, issued when no
timer is currently expiring (for example right after initialisation),
returns found = true and marks the idle expiring slot removed, instead of
returning found = false with no side effect: the zeroed timer_expiring
struct has id 0 and delete_timer compares ids without checking whether an
expiry is in progress.  For every other never-assigned id the specified
behaviour does hold, as the last conjunct shows for id 5 on the initial
state. -/
theorem delete_timer_id_zero_divergence :
    (delete_timer 0 initEvState).1 = true ∧
    (delete_timer 0 initEvState).2 ≠ initEvState ∧
    delete_timer 5 initEvState = (false, initEvState) := by decide

theorem listen_fd_update_none (fd events : Int) :
    ∀ {l : List PollFd}, (∀ p ∈ l, p.fd ≠ fd) → listen_fd_update fd events l = none
  | [], _ => rfl
  | p :: ps, h => by
    rw [listen_fd_update]
    rw [if_neg (h p (List.mem_cons_self p ps))]
    rw [listen_fd_update_none fd events (fun q hq => h q (List.mem_cons_of_mem p hq))]

/-- C9: watchDescriptor(fd, 0) for a descriptor value not present in the
poll set is not a no-op: listen_fd falls through the not-found scan into the
append branch, adding a fresh entry with interest mask 0 and consuming a
slot (the poll list grows by one), and when the set is already full it fails
with the capacity error instead of leaving the set unchanged. -/
theorem watch_zero_mask_appends (fd : Int) (l : List PollFd)
    (habs : ∀ p ∈ l, p.fd ≠ fd) (hlen : l.length < MAX_FDS) :
    listen_fd fd 0 l = .ok (l ++ [(⟨fd, 0, 0⟩ : PollFd)]) ∧
    (l ++ [(⟨fd, 0, 0⟩ : PollFd)]).length = l.length + 1 ∧
    (∀ l2 : List PollFd, (∀ p ∈ l2, p.fd ≠ fd) → MAX_FDS ≤ l2.length →
      listen_fd fd 0 l2 = .error ()) := by
  refine ⟨?_, by simp, ?_⟩
  · unfold listen_fd
    rw [listen_fd_update_none fd 0 habs]
    dsimp only
    rw [if_neg (not_le.mpr hlen)]
  · intro l2 habs2 hlen2
    unfold listen_fd
    rw [listen_fd_update_none fd 0 habs2]
    dsimp only
    rw [if_pos hlen2]

/-! Witnesses: each applies its claim theorem at a concrete input. -/

theorem oneshot_timer_fires_once_witness :
    ((5 : ℚ) ≤ 10) ∧
    ((((expire_timers (cbOf (fun _ _ => [])) 10
        ⟨[⟨1, 5, 5, true, false⟩], zeroTimer, 2, [1], [], false⟩).2.1.map Prod.fst).count
          (1 : Int) = 1) ∧
     (∀ t ∈ (expire_timers (cbOf (fun _ _ => [])) 10
        ⟨[⟨1, 5, 5, true, false⟩], zeroTimer, 2, [1], [], false⟩).1.timer_list,
          t.id ≠ (1 : Int)) ∧
     (expire_timers (cbOf (fun _ _ => [])) 10
        ⟨[⟨1, 5, 5, true, false⟩], zeroTimer, 2, [1], [], false⟩).1.timer_expiring.id ≠
          (1 : Int) ∧
     (1 : Int) ∉ (expire_timers (cbOf (fun _ _ => [])) 10
        ⟨[⟨1, 5, 5, true, false⟩], zeroTimer, 2, [1], [], false⟩).1.eventTimers ∧
     (∀ e ∈ (expire_timers (cbOf (fun _ _ => [])) 10
        ⟨[⟨1, 5, 5, true, false⟩], zeroTimer, 2, [1], [], false⟩).2.1,
          ∀ t ∈ e.2.timer_list, t.id ≠ (1 : Int))) :=
  ⟨by decide,
   oneshot_timer_fires_once (fun _ _ => []) 10
     ⟨[⟨1, 5, 5, true, false⟩], zeroTimer, 2, [1], [], false⟩ [] ⟨1, 5, 5, true, false⟩
     rfl (by decide) rfl rfl (by decide) (by decide) (by simp)⟩

theorem cancel_expiring_discards_timer_witness :
    ((5 : ℚ) ≤ 10 ∧
      ((cbOf (fun i _ => [Op.deleteTimer i])) (1 : Int)
        (fire_setup 10 [] ⟨1, 5, 10, false, false⟩
          ⟨[⟨1, 5, 10, false, false⟩], zeroTimer, 2, [1], [], false⟩)).timer_expiring.removed
        = true) ∧
    ((∀ (u : EvState) (tid : Int), u.timer_expiring.id = tid →
      delete_timer tid u =
        (true, { u with timer_expiring := { u.timer_expiring with removed := true } })) ∧
     (((expire_timers (cbOf (fun i _ => [Op.deleteTimer i])) 10
        ⟨[⟨1, 5, 10, false, false⟩], zeroTimer, 2, [1], [], false⟩).2.1.map Prod.fst).count
          (1 : Int) = 1) ∧
     (∀ t ∈ (expire_timers (cbOf (fun i _ => [Op.deleteTimer i])) 10
        ⟨[⟨1, 5, 10, false, false⟩], zeroTimer, 2, [1], [], false⟩).1.timer_list,
          t.id ≠ (1 : Int)) ∧
     (expire_timers (cbOf (fun i _ => [Op.deleteTimer i])) 10
        ⟨[⟨1, 5, 10, false, false⟩], zeroTimer, 2, [1], [], false⟩).1.timer_expiring.id ≠
          (1 : Int) ∧
     (1 : Int) ∉ (expire_timers (cbOf (fun i _ => [Op.deleteTimer i])) 10
        ⟨[⟨1, 5, 10, false, false⟩], zeroTimer, 2, [1], [], false⟩).1.eventTimers ∧
     (∀ e ∈ (expire_timers (cbOf (fun i _ => [Op.deleteTimer i])) 10
        ⟨[⟨1, 5, 10, false, false⟩], zeroTimer, 2, [1], [], false⟩).2.1,
          ∀ t ∈ e.2.timer_list, t.id ≠ (1 : Int))) :=
  ⟨⟨by decide, by decide⟩,
   cancel_expiring_discards_timer (fun i _ => [Op.deleteTimer i]) 10
     ⟨[⟨1, 5, 10, false, false⟩], zeroTimer, 2, [1], [], false⟩ [] ⟨1, 5, 10, false, false⟩
     rfl (by decide) rfl (by decide) (by decide) (by simp) (by decide)⟩

theorem poll_error_no_dispatch_witness :
    ((∀ p ∈ ([⟨4, 1, 0⟩] : List PollFd), p.fd ≠ 0 → p.revents = 0)) ∧
    (eventloop_iter (cbOf (fun _ _ => [])) (fun _ => none) (fun _ _ st => (st, true)) 0 0
        ⟨[⟨1, 5, 5, true, false⟩], zeroTimer, 2, [1], [⟨4, 1, 0⟩], false⟩ =
      eventloop_iter (cbOf (fun _ _ => [])) (fun _ => some (0, []))
        (fun _ _ st => (st, true)) 0 0
        ⟨[⟨1, 5, 5, true, false⟩], zeroTimer, 2, [1], [⟨4, 1, 0⟩], false⟩ ∧
     (eventloop_iter (cbOf (fun _ _ => [])) (fun _ => none) (fun _ _ st => (st, true)) 0 0
        ⟨[⟨1, 5, 5, true, false⟩], zeroTimer, 2, [1], [⟨4, 1, 0⟩], false⟩).fdLog = [] ∧
     (eventloop_iter (cbOf (fun _ _ => [])) (fun _ => none) (fun _ _ st => (st, true)) 0 0
        ⟨[⟨1, 5, 5, true, false⟩], zeroTimer, 2, [1], [⟨4, 1, 0⟩], false⟩).errReads = [] ∧
     ((eventloop_iter (cbOf (fun _ _ => [])) (fun _ => none) (fun _ _ st => (st, true)) 0 0
        ⟨[⟨1, 5, 5, true, false⟩], zeroTimer, 2, [1], [⟨4, 1, 0⟩], false⟩).polled = true →
      (eventloop_iter (cbOf (fun _ _ => [])) (fun _ => none) (fun _ _ st => (st, true)) 0 0
        ⟨[⟨1, 5, 5, true, false⟩], zeroTimer, 2, [1], [⟨4, 1, 0⟩], false⟩).stop = false)) :=
  ⟨by decide,
   poll_error_no_dispatch.2 (fun _ _ => []) (fun _ => none) (fun _ => some (0, []))
     (fun _ _ st => (st, true)) 0 0
     ⟨[⟨1, 5, 5, true, false⟩], zeroTimer, 2, [1], [⟨4, 1, 0⟩], false⟩
     (fun _ => rfl) (fun _ => rfl) (by decide)⟩

theorem repeating_timer_target_now_plus_delay_witness :
    (((1 : Int), (⟨[], ⟨1, 7 + 10, 10, false, false⟩, 2, [1], [], false⟩ : EvState)) ∈
      (expire_timers (cbOf (fun _ _ => [Op.requestExit])) 7
        ⟨[⟨1, 5, 10, false, false⟩], zeroTimer, 2, [1], [], false⟩).2.1 ∧
     (⟨[], ⟨1, 7 + 10, 10, false, false⟩, 2, [1], [], false⟩ :
        EvState).timer_expiring.oneshot = false) ∧
    (⟨[], ⟨1, 7 + 10, 10, false, false⟩, 2, [1], [], false⟩ :
        EvState).timer_expiring.target =
      7 + (⟨[], ⟨1, 7 + 10, 10, false, false⟩, 2, [1], [], false⟩ :
        EvState).timer_expiring.delay := by
  have hmem : ((1 : Int), (⟨[], ⟨1, 7 + 10, 10, false, false⟩, 2, [1], [], false⟩ :
      EvState)) ∈
      (expire_timers (cbOf (fun _ _ => [Op.requestExit])) 7
        ⟨[⟨1, 5, 10, false, false⟩], zeroTimer, 2, [1], [], false⟩).2.1 := by
    simp [expire_concrete_repeat]
  exact ⟨⟨hmem, rfl⟩,
    (repeating_timer_target_now_plus_delay (cbOf (fun _ _ => [Op.requestExit])) 7
      ⟨[⟨1, 5, 10, false, false⟩], zeroTimer, 2, [1], [], false⟩).1 _ hmem rfl⟩

theorem expire_timers_bounded_and_exit_witness :
    (⟨[], zeroTimer, 1, [], [], true⟩ : EvState).exit_requested = true ∧
    (expire_timers (fun _ s => s) 0 ⟨[], zeroTimer, 1, [], [], true⟩).2.1 = [] :=
  ⟨rfl, (expire_timers_bounded_and_exit (fun _ s => s) 0
    ⟨[], zeroTimer, 1, [], [], true⟩).2.2.1 rfl⟩

theorem loop_stops_when_idle_witness :
    ((expire_timers (fun _ s => s) 0 initEvState).1.timer_list = [] ∧
      compact_poll_list (expire_timers (fun _ s => s) 0 initEvState).1.poll_list = []) ∧
    ((eventloop_iter (fun _ s => s) (fun _ => none) (fun _ _ st => (st, false)) 0 0
        initEvState).stop = true ∧
     (eventloop_iter (fun _ s => s) (fun _ => none) (fun _ _ st => (st, false)) 0 0
        initEvState).polled = false ∧
     (eventloop_iter (fun _ s => s) (fun _ => none) (fun _ _ st => (st, false)) 0 0
        initEvState).fdLog = []) :=
  ⟨⟨rfl, rfl⟩,
   loop_stops_when_idle.1 (fun _ s => s) (fun _ => none) (fun _ _ st => (st, false)) 0 0
     initEvState rfl rfl rfl rfl⟩

theorem watch_zero_mask_appends_witness :
    ((∀ p ∈ ([⟨3, 1, 0⟩] : List PollFd), p.fd ≠ 7) ∧
      ([⟨3, 1, 0⟩] : List PollFd).length < MAX_FDS) ∧
    (listen_fd 7 0 [⟨3, 1, 0⟩] = .ok ([(⟨3, 1, 0⟩ : PollFd)] ++ [(⟨7, 0, 0⟩ : PollFd)]) ∧
     ([(⟨3, 1, 0⟩ : PollFd)] ++ [(⟨7, 0, 0⟩ : PollFd)]).length =
       ([⟨3, 1, 0⟩] : List PollFd).length + 1 ∧
     (∀ l2 : List PollFd, (∀ p ∈ l2, p.fd ≠ 7) → MAX_FDS ≤ l2.length →
       listen_fd 7 0 l2 = .error ())) :=
  ⟨⟨by decide, by decide⟩,
   watch_zero_mask_appends 7 [⟨3, 1, 0⟩] (by decide) (by decide)⟩

theorem fd_error_branch_null_nearest_witness :
    ((4 : Int) ≠ 0 ∧ (1 : Int) ≠ 0) ∧
    (find_nearest_timer ⟨[], zeroTimer, 1, [], [⟨4, 1, 0⟩], false⟩ = none ∧
     (eventloop_iter (fun _ s => s) (fun _ => some (1, [1])) (fun _ _ st => (st, true)) 0 0
        ⟨[], zeroTimer, 1, [], [⟨4, 1, 0⟩], false⟩).errReads = [none] ∧
     (eventloop_iter (fun _ s => s) (fun _ => some (1, [1])) (fun _ _ st => (st, true)) 0 0
        ⟨[], zeroTimer, 1, [], [⟨4, 1, 0⟩], false⟩).fdLog = [(4, 1)]) :=
  ⟨by decide,
   fd_error_branch_null_nearest (fun _ s => s) (fun _ => some (1, [1]))
     (fun _ _ st => (st, true)) 0 0 4 1 1 ⟨[], zeroTimer, 1, [], [⟨4, 1, 0⟩], false⟩
     rfl rfl rfl (by decide) (by decide) (fun _ => rfl) (fun _ _ _ => rfl)⟩

end CEventLoop
